import Mathlib

/-!
Verification development for the browser-side API client of the
blockwall-kg-hub repository (`src/js/api.js`, `src/js/config.js`).

The development shallowly embeds:

* `RETRY_CONFIG` (config.js) with its delay fields as rationals;
* `calculateBackoff` (api.js lines 14-26), with the uniform random draw of
  `Math.random()` made an explicit parameter `r` ranging over `[0, 1]`, and
  `Math.floor` as the integer floor on `ℚ`;
* `fetchWithRetry` (api.js lines 35-103) as a fuel-indexed loop over an
  oracle of per-attempt fetch outcomes; the `onRetry` callback is modelled
  as a function returning `none` when it returns normally and `some e` when
  it throws the JavaScript error `e`, so that the try/catch routing of
  exceptions thrown by the callback is captured faithfully;
* the SSE reading loop of `askQuestionStream` (api.js lines 158-196):
  chunk decoding is abstracted to already-decoded text (the claims use
  ASCII chunks), `buffer.split('\n')` followed by `lines.pop()` is the
  function `splitLines`, the per-line `data: ` handling with its inner
  try/catch is `processLines`, and the `while (true)` read loop is
  `readLoop`;
* `JSON.parse` as an executable recursive-descent JSON parser over
  `List Char` (platform builtin, modelled; numeric literals are modelled as
  integers only — no claim involves fractional numbers);
* the whole of `askQuestionStream` (api.js lines 129-208) together with the
  module-level `currentStreamController` (line 120) as a small-step
  interleaving machine `askStep`: each atomic segment between `await`
  points of a call is one step, the global state carries the shared
  controller handle, the set of aborted controllers, each call's phase, and
  a log of `onEvent` / `onError` invocations and `abort()` signals.
-/

/-! ## Retry configuration (src/js/config.js, lines 9-16) -/

structure RetryConfig where
  maxAttempts : Nat
  initialDelay : ℚ
  maxDelay : ℚ
  backoffMultiplier : ℚ
  jitterFactor : ℚ
  retryableStatuses : List Nat

def RETRY_CONFIG : RetryConfig :=
  { maxAttempts := 5
    initialDelay := 2000
    maxDelay := 30000
    backoffMultiplier := 2
    jitterFactor := 3/10
    retryableStatuses := [408, 429, 500, 502, 503, 504] }

/-! ## calculateBackoff (src/js/api.js, lines 14-26)

`Math.random()` is the explicit parameter `r ∈ [0,1]`; `Math.floor` is
`Int.floor` on `ℚ`. -/

def calculateBackoff (attempt : Nat) (r : ℚ) : ℤ :=
  let baseDelay := RETRY_CONFIG.initialDelay * RETRY_CONFIG.backoffMultiplier ^ (attempt - 1)
  let cappedDelay := min baseDelay RETRY_CONFIG.maxDelay
  let jitterRange := RETRY_CONFIG.jitterFactor * cappedDelay
  let jitter := (r * 2 - 1) * jitterRange
  ⌊cappedDelay + jitter⌋

/-! ## fetchWithRetry (src/js/api.js, lines 35-103)

A JavaScript error value is modelled by its `name`, whether it is an
`instanceof TypeError`, and its `message`; the per-attempt outcome of the
`fetch` call is an oracle `oc : Nat → FetchOutcome` (1-indexed attempt
number), and the `onRetry` callback is `onR : Nat → Option JsError`
(`some e` meaning the callback throws `e` when invoked on that attempt). -/

structure JsError where
  name : String
  typeErr : Bool
  message : String
deriving DecidableEq

def mkError (msg : String) : JsError :=
  { name := "Error", typeErr := false, message := msg }

/-- Message of the error thrown at api.js line 60. -/
def serverErrorMsg (status maxA : Nat) : String :=
  "Server returned " ++ (toString status ++ (" after " ++ (toString maxA ++ " attempts")))

/-- Message of the error thrown at api.js line 82. -/
def networkErrorMsg (maxA : Nat) (m : String) : String :=
  "Network error after " ++ (toString maxA ++ (" attempts: " ++ m))

/-- The test at api.js line 80: `error.name === 'AbortError' || error instanceof TypeError`. -/
def retryableError (e : JsError) : Bool :=
  e.name = "AbortError" || e.typeErr

inductive FetchOutcome where
  | resp (status : Nat)
  | err (e : JsError)

inductive RetryResult where
  | success (status : Nat)
  | failure (e : JsError)
deriving DecidableEq

/-- Observable side effects of one `fetchWithRetry` call: the attempt numbers
at which a request was issued, at which `onRetry` was invoked, and after
which `await sleep(delay)` ran. -/
structure RetryTrace where
  fetches : List Nat
  onRetryCalls : List Nat
  sleeps : List Nat
deriving DecidableEq

/-- The `for` loop of api.js lines 44-100 plus the final `throw` at line 102.
`fuel` is the number of remaining iterations (`maxAttempts - attempt + 1`);
`attempt` is the 1-indexed loop counter of the source. -/
def fetchLoop (oc : Nat → FetchOutcome) (onR : Nat → Option JsError) :
    Nat → Nat → RetryTrace → RetryResult × RetryTrace
  | _, 0, tr => (.failure (mkError "Max retry attempts exceeded"), tr)
  | attempt, fuel + 1, tr =>
    let tr := { tr with fetches := tr.fetches ++ [attempt] }
    match oc attempt with
    | .resp s =>
      if s ∈ RETRY_CONFIG.retryableStatuses then
        if attempt = RETRY_CONFIG.maxAttempts then
          -- line 60: thrown inside `try`, caught at line 78, not an
          -- AbortError/TypeError, rethrown at line 98
          (.failure (mkError (serverErrorMsg s RETRY_CONFIG.maxAttempts)), tr)
        else
          -- line 68: onRetry invoked inside the `try`
          let tr := { tr with onRetryCalls := tr.onRetryCalls ++ [attempt] }
          match onR attempt with
          | none =>
            let tr := { tr with sleeps := tr.sleeps ++ [attempt] }
            fetchLoop oc onR (attempt + 1) fuel tr
          | some e =>
            -- the throw lands in the catch block at line 78
            if retryableError e then
              -- attempt ≠ maxAttempts here, so line 90 invokes onRetry again;
              -- its second throw propagates out of the function
              let tr := { tr with onRetryCalls := tr.onRetryCalls ++ [attempt] }
              match onR attempt with
              | some e2 => (.failure e2, tr)
              | none =>
                let tr := { tr with sleeps := tr.sleeps ++ [attempt] }
                fetchLoop oc onR (attempt + 1) fuel tr
            else
              -- line 98: rethrow, aborting the loop
              (.failure e, tr)
      else
        -- line 76: success or non-retryable status
        (.success s, tr)
    | .err e =>
      if retryableError e then
        if attempt = RETRY_CONFIG.maxAttempts then
          (.failure (mkError (networkErrorMsg RETRY_CONFIG.maxAttempts e.message)), tr)
        else
          -- line 90: onRetry invoked inside the `catch`; a throw here has no
          -- surrounding handler and propagates out of the function
          let tr := { tr with onRetryCalls := tr.onRetryCalls ++ [attempt] }
          match onR attempt with
          | some e2 => (.failure e2, tr)
          | none =>
            let tr := { tr with sleeps := tr.sleeps ++ [attempt] }
            fetchLoop oc onR (attempt + 1) fuel tr
      else
        -- line 98: non-retryable error, rethrown
        (.failure e, tr)

def fetchWithRetry (oc : Nat → FetchOutcome) (onR : Nat → Option JsError) :
    RetryResult × RetryTrace :=
  fetchLoop oc onR 1 RETRY_CONFIG.maxAttempts ⟨[], [], []⟩

/-! ## SSE line buffering and JSON parsing (src/js/api.js, lines 158-196)

Chunks are already-decoded text (`List Char`); `TextDecoder` statefulness
across multi-byte characters is outside the model (the claims' chunks are
ASCII). -/

/-- JSON / JavaScript whitespace (the ASCII fragment). -/
def jsWs (c : Char) : Bool :=
  c = ' ' || c = '\n' || c = '\t' || c = '\r'

def skipWs (s : List Char) : List Char :=
  s.dropWhile jsWs

/-- `data.trim()` at api.js line 180 (ASCII whitespace fragment). -/
def trimJs (s : List Char) : List Char :=
  ((s.dropWhile jsWs).reverse.dropWhile jsWs).reverse

/-- `buffer.split('\n')` followed by `buffer = lines.pop()` (api.js lines
173-174): returns the complete lines and the retained final fragment. -/
def splitLines : List Char → List (List Char) × List Char
  | [] => ([], [])
  | c :: cs =>
    let r := splitLines cs
    if c = '\n' then ([] :: r.1, r.2)
    else
      match r with
      | (l :: t, frag) => ((c :: l) :: t, frag)
      | ([], frag) => ([], c :: frag)

/-- JSON value, the result type of the modelled `JSON.parse`. -/
inductive Jv where
  | null
  | tru
  | fls
  | num (n : Int)
  | str (s : List Char)
  | arr (xs : List Jv)
  | obj (fields : List (List Char × Jv))

/-- JSON string escape sequences (`\uXXXX` is not modelled; no claim uses it). -/
def escChar (c : Char) : Option Char :=
  if c = '"' then some '"'
  else if c = '\\' then some '\\'
  else if c = '/' then some '/'
  else if c = 'n' then some '\n'
  else if c = 't' then some '\t'
  else if c = 'r' then some '\r'
  else if c = 'b' then some (Char.ofNat 8)
  else if c = 'f' then some (Char.ofNat 12)
  else none

/-- Body of a JSON string literal, after the opening quote. -/
def parseStrBody : Nat → List Char → Option (List Char × List Char)
  | 0, _ => none
  | _ + 1, [] => none
  | f + 1, c :: cs =>
    if c = '"' then some ([], cs)
    else if c = '\\' then
      match cs with
      | [] => none
      | e :: cs2 =>
        match escChar e with
        | none => none
        | some r =>
          match parseStrBody f cs2 with
          | none => none
          | some (s, rest) => some (r :: s, rest)
    else if c.val < 32 then none
    else
      match parseStrBody f cs with
      | none => none
      | some (s, rest) => some (c :: s, rest)

def parseDigits : Nat → List Char → Nat → Option (Nat × List Char)
  | 0, _, _ => none
  | _ + 1, [], acc => some (acc, [])
  | f + 1, c :: cs, acc =>
    if c.isDigit then parseDigits f cs (acc * 10 + (c.toNat - 48))
    else some (acc, c :: cs)

/-- JSON number (modelled for integer literals only: an optional minus sign
and a digit run with no leading zero; fractional and exponent forms, which no
claim exercises, are rejected by the model). -/
def parseNum (s : List Char) : Option (Int × List Char) :=
  match s with
  | '-' :: rest =>
    match parseNum rest with
    | some (n, r) => some (-n, r)
    | none => none
  | c :: rest =>
    if c.isDigit then
      if c = '0' && (match rest with | c2 :: _ => c2.isDigit | [] => false) then none
      else
        match parseDigits (s.length + 1) (c :: rest) 0 with
        | some (n, r) =>
          match r with
          | '.' :: _ => none
          | 'e' :: _ => none
          | 'E' :: _ => none
          | _ => some ((n : Int), r)
        | none => none
    else none
  | [] => none

mutual

/-- Recursive-descent JSON value parser (model of the platform `JSON.parse`). -/
def parseJv : Nat → List Char → Option (Jv × List Char)
  | 0, _ => none
  | f + 1, s =>
    match skipWs s with
    | [] => none
    | c :: cs =>
      if c = '"' then
        match parseStrBody (cs.length + 1) cs with
        | some (str, rest) => some (.str str, rest)
        | none => none
      else if c = '\x7b' then
        match parseMembers f (skipWs cs) true with
        | some (fs, rest) => some (.obj fs, rest)
        | none => none
      else if c = '[' then
        match parseElems f (skipWs cs) true with
        | some (xs, rest) => some (.arr xs, rest)
        | none => none
      else if c = 'n' then
        match cs with
        | 'u' :: 'l' :: 'l' :: rest => some (.null, rest)
        | _ => none
      else if c = 't' then
        match cs with
        | 'r' :: 'u' :: 'e' :: rest => some (.tru, rest)
        | _ => none
      else if c = 'f' then
        match cs with
        | 'a' :: 'l' :: 's' :: 'e' :: rest => some (.fls, rest)
        | _ => none
      else
        match parseNum (c :: cs) with
        | some (n, rest) => some (.num n, rest)
        | none => none

/-- Object members after `{` (whitespace already skipped); `first` is true
before the first member. -/
def parseMembers : Nat → List Char → Bool → Option (List (List Char × Jv) × List Char)
  | 0, _, _ => none
  | f + 1, s, first =>
    match s with
    | '\x7d' :: rest => if first then some ([], rest) else none
    | '"' :: cs =>
      match parseStrBody (cs.length + 1) cs with
      | none => none
      | some (key, rest) =>
        match skipWs rest with
        | ':' :: rest2 =>
          match parseJv f rest2 with
          | none => none
          | some (v, rest3) =>
            match skipWs rest3 with
            | ',' :: rest4 =>
              match parseMembers f (skipWs rest4) false with
              | some (fs, rest5) =>
                match fs with
                | [] => none
                | _ => some ((key, v) :: fs, rest5)
              | none => none
            | '\x7d' :: rest4 => some ([(key, v)], rest4)
            | _ => none
        | _ => none
    | _ => none

/-- Array elements after `[` (whitespace already skipped). -/
def parseElems : Nat → List Char → Bool → Option (List Jv × List Char)
  | 0, _, _ => none
  | f + 1, s, first =>
    match s with
    | ']' :: rest => if first then some ([], rest) else none
    | _ =>
      match parseJv f s with
      | none => none
      | some (v, rest) =>
        match skipWs rest with
        | ',' :: rest2 =>
          match parseElems f (skipWs rest2) false with
          | some (xs, rest3) =>
            match xs with
            | [] => none
            | _ => some (v :: xs, rest3)
          | none => none
        | ']' :: rest2 => some ([v], rest2)
        | _ => none

end

/-- Model of `JSON.parse` (api.js line 182): parse one value and require only
whitespace to remain. -/
def jsonParse (s : List Char) : Option Jv :=
  match parseJv (s.length + 1) s with
  | some (v, rest) => if skipWs rest = [] then some v else none
  | none => none

/-! ## The per-line SSE record handling (api.js, lines 176-195) -/

/-- Field lookup for JavaScript property access `event.type`: with duplicate
keys, `JSON.parse` keeps the last occurrence, so lookup prefers later fields. -/
def lookupField (fs : List (List Char × Jv)) (key : List Char) : Option Jv :=
  match fs with
  | [] => none
  | (k, v) :: t =>
    match lookupField t key with
    | some r => some r
    | none => if k = key then some v else none

/-- `event.type === 'done'` (api.js line 186) for an event on which the
property access does not throw. -/
def typeIsDone (v : Jv) : Bool :=
  match v with
  | .obj fs =>
    match lookupField fs "type".toList with
    | some (.str s) => s = "done".toList
    | _ => false
  | _ => false

/-- `event.type` throws a TypeError exactly when the parsed event is `null`
(`JSON.parse` never yields `undefined`); the throw is caught by the handler
at api.js line 190. -/
def eventTypeThrows (v : Jv) : Bool :=
  match v with
  | .null => true
  | _ => false

/-- The `for (const line of lines)` loop of api.js lines 176-195.
`evth ev = true` models the caller's `onEvent` throwing on `ev`; the throw is
caught by the same `catch` (line 190) as a JSON parse failure.  Returns the
events passed to `onEvent`, in order, and whether the `done` return
(lines 186-188) fired, which abandons the remaining lines. -/
def processLines (evth : Jv → Bool) : List (List Char) → List Jv × Bool
  | [] => ([], false)
  | line :: rest =>
    if "data: ".toList.isPrefixOf line then
      let data := line.drop 6
      if trimJs data = [] then processLines evth rest
      else
        match jsonParse data with
        | none =>
          -- parse failure: logged at line 191, stream continues
          processLines evth rest
        | some ev =>
          if evth ev then
            -- onEvent threw after being invoked; caught at line 190
            let r := processLines evth rest
            (ev :: r.1, r.2)
          else if eventTypeThrows ev then
            -- `event.type` threw; caught at line 190
            let r := processLines evth rest
            (ev :: r.1, r.2)
          else if typeIsDone ev then ([ev], true)
          else
            let r := processLines evth rest
            (ev :: r.1, r.2)
    else processLines evth rest

/-- How the `while (true)` read loop of api.js lines 162-196 ends: by the
`done` event return at line 188, or by end of stream at line 166. -/
inductive StreamExit where
  | doneEvent
  | endOfStream
deriving DecidableEq

/-- The read loop of api.js lines 162-196: one chunk per `reader.read()`,
appended to the buffer, split into complete lines plus a retained fragment,
lines processed by `processLines`.  Returns all events passed to `onEvent`
and how the loop ended. -/
def readLoop (evth : Jv → Bool) : List (List Char) → List Char → List Jv × StreamExit
  | [], _ => ([], .endOfStream)
  | chunk :: rest, buffer =>
    let sl := splitLines (buffer ++ chunk)
    let p := processLines evth sl.1
    if p.2 then (p.1, .doneEvent)
    else
      let r := readLoop evth rest sl.2
      (p.1 ++ r.1, r.2)

/-- The `token` event of the chunk-boundary test vector. -/
def tokenHiEvent : Jv :=
  .obj [("type".toList, .str "token".toList), ("data".toList, .str "hi".toList)]

/-- The `done` event `{"type":"done","data":null}`. -/
def doneEvent : Jv :=
  .obj [("type".toList, .str "done".toList), ("data".toList, .null)]

/-! ## askQuestionStream as a small-step interleaving machine
(src/js/api.js, lines 119-208)

Several logical calls to `askQuestionStream` run concurrently on the
single-threaded event loop; a scheduler step runs one call from its current
`await` point to its next one.  Calls are identified by `Nat`; each call's
behaviour of the outside world is a `CallScript`.  The module-level
`currentStreamController` (line 120) is `GState.handle`, holding the id of
the call whose `AbortController` is installed.  `GState.aborted` is the set
of call ids whose controller has had `abort()` invoked. -/

structure CallScript where
  /-- Whether the health probe of line 138 eventually resolves (`true`) or
  rejects (`false`). -/
  healthOk : Bool
  /-- `response.ok` of the streaming POST (line 153). -/
  streamOk : Bool
  /-- The decoded chunks the stream's reader yields, in order. -/
  chunks : List (List Char)
  /-- Whether the caller's `onEvent` throws on a given event. -/
  evThrows : Jv → Bool

/-- The phase of one call of `askQuestionStream`, i.e. its program counter at
an `await` point. -/
inductive Phase where
  /-- About to run the entry segment (lines 130-138): cancel any previous
  stream and issue the health probe. -/
  | start
  /-- Suspended on the health probe `await` of line 138. -/
  | health
  /-- Controller installed (line 141); suspended on the stream POST `await`
  of line 144. -/
  | fetchWait
  /-- Suspended on `reader.read()` (line 163) with the remaining chunks and
  the current line buffer. -/
  | reading (rem : List (List Char)) (buffer : List Char)
  /-- Returned; the `finally` of lines 205-207 has run. -/
  | finished
deriving DecidableEq

inductive LogEntry where
  /-- Call `c` invoked `onEvent v`. -/
  | ev (c : Nat) (v : Jv)
  /-- Call `c` invoked `onError` (line 203). -/
  | errCb (c : Nat)
  /-- `abort()` was invoked on the controller installed by call `victim`
  (line 133). -/
  | abortSig (victim : Nat)

structure GState where
  /-- `currentStreamController` (api.js line 120): the id of the call whose
  controller is currently stored, if any. -/
  handle : Option Nat
  /-- Ids of calls whose controller has been aborted. -/
  aborted : List Nat
  phases : Nat → Phase
  log : List LogEntry

/-- One scheduler step of call `c`: runs `c` from its current `await` point
to the next one (or to return), mirroring api.js lines 129-208.  A step of a
`finished` call is a no-op. -/
def askStep (sc : Nat → CallScript) (g : GState) (c : Nat) : GState :=
  match g.phases c with
  | .start =>
    -- lines 130-138: cancel previous stream if exists, then await the
    -- health probe
    match g.handle with
    | some k =>
      { handle := none
        aborted := k :: g.aborted
        phases := Function.update g.phases c .health
        log := g.log ++ [.abortSig k] }
    | none => { g with phases := Function.update g.phases c .health }
  | .health =>
    if (sc c).healthOk then
      -- lines 141-151: install a fresh controller, await the streaming POST
      { g with
        handle := some c
        phases := Function.update g.phases c .fetchWait }
    else
      -- health probe rejected: catch at line 198 (not an AbortError, since
      -- this call's controller does not exist yet) → onError, finally
      { g with
        handle := none
        phases := Function.update g.phases c .finished
        log := g.log ++ [.errCb c] }
  | .fetchWait =>
    if c ∈ g.aborted then
      -- the POST rejected with AbortError → benign (lines 199-201), finally
      { g with
        handle := none
        phases := Function.update g.phases c .finished }
    else if (sc c).streamOk then
      { g with phases := Function.update g.phases c (.reading (sc c).chunks []) }
    else
      -- line 154: throw → catch → onError (line 203), finally
      { g with
        handle := none
        phases := Function.update g.phases c .finished
        log := g.log ++ [.errCb c] }
  | .reading rem buffer =>
    if c ∈ g.aborted then
      -- pending read rejected with AbortError → benign, finally
      { g with
        handle := none
        phases := Function.update g.phases c .finished }
    else
      match rem with
      | [] =>
        -- line 165: `done` is true → break → fall out of try → finally
        { g with
          handle := none
          phases := Function.update g.phases c .finished }
      | chunk :: rest =>
        let sl := splitLines (buffer ++ chunk)
        let p := processLines (sc c).evThrows sl.1
        let entries := p.1.map (LogEntry.ev c)
        if p.2 then
          -- `done` event: reader.cancel(), return (line 188), finally
          { g with
            handle := none
            phases := Function.update g.phases c .finished
            log := g.log ++ entries }
        else
          { g with
            phases := Function.update g.phases c (.reading rest sl.2)
            log := g.log ++ entries }
  | .finished => g

/-- Run a schedule: each entry is the id of the call stepped next. -/
def askRun (sc : Nat → CallScript) (g : GState) : List Nat → GState
  | [] => g
  | c :: rest => askRun sc (askStep sc g c) rest

/-- The events call `c` passed to `onEvent`, in order. -/
def onEventsBy (c : Nat) (log : List LogEntry) : List Jv :=
  log.filterMap fun entry =>
    match entry with
    | .ev c2 v => if c2 = c then some v else none
    | _ => none

/-- How many times call `c` invoked `onError`. -/
def onErrorCount (c : Nat) (log : List LogEntry) : Nat :=
  (log.filter fun entry =>
    match entry with
    | .errCb c2 => c2 = c
    | _ => false).length

/-- Initial global state: no controller stored, no call started. -/
def gInit : GState :=
  { handle := none, aborted := [], phases := fun _ => .start, log := [] }

/-- A generic JavaScript `Error` thrown by an `onRetry` callback. -/
def cbError : JsError :=
  { name := "Error", typeErr := false, message := "onRetry failed" }

/-- An `AbortError`, as produced by an aborted fetch. -/
def abortError : JsError :=
  { name := "AbortError", typeErr := false, message := "The operation was aborted" }

/-- A call script with a healthy backend: used to instantiate concrete
scenarios of the `askQuestionStream` machine. -/
def mkChunksScript (chunks : List (List Char)) (evth : Jv → Bool) : CallScript :=
  { healthOk := true, streamOk := true, chunks := chunks, evThrows := evth }

/-- Script for the C7 scenario: one chunk holding a malformed record
followed by a valid `done` record. -/
def c7Script : Nat → CallScript := fun _ =>
  mkChunksScript
    ["data: \x7bnot json\x7d\ndata: \x7b\"type\":\"done\",\"data\":null\x7d\n".toList]
    (fun _ => false)

/-- Script for the C9 scenario: `onEvent` throws exactly on `done` events;
the single chunk holds a `done` record followed by a `token` record. -/
def c9Script : Nat → CallScript := fun _ =>
  mkChunksScript
    ["data: \x7b\"type\":\"done\",\"data\":null\x7d\ndata: \x7b\"type\":\"token\",\"data\":\"hi\"\x7d\n".toList]
    typeIsDone

/-- A script whose stream has no chunks. -/
def emptyScript : Nat → CallScript := fun _ => mkChunksScript [] (fun _ => false)

/-- A call's controller stays installed only while it is suspended on its
stream request or a read; the predicate collects these phases together with
`finished`, the states a superseded call can be in once aborted. -/
def postInstall (p : Phase) : Prop :=
  p = .fetchWait ∨ (∃ rem buffer, p = .reading rem buffer) ∨ p = .finished

/-- Script of the superseded call in the C1 counterexample: its stream
carries one `token` record. -/
def c1Script : Nat → CallScript := fun c =>
  if c = 0 then
    mkChunksScript ["data: \x7b\"type\":\"token\",\"data\":\"hi\"\x7d\n".toList] (fun _ => false)
  else
    mkChunksScript ["data: \x7b\"type\":\"done\",\"data\":null\x7d\n".toList] (fun _ => false)

/-- State for the C1 witness: call 0 is past its health probe, suspended on
a read with its controller installed; call 1 has not started. -/
def c1WitnessState : GState :=
  { handle := some 0
    aborted := []
    phases := fun c => if c = 0 then Phase.reading [] [] else Phase.start
    log := [] }

/-! ## Lemmas and claim theorems -/

/-- C2, counterexample.  The claim asserts that for every attempt in
`[1, maxAttempts]` and every uniform draw, the computed delay is at least
`initialDelay·backoffMultiplier^(attempt-1)·(1-jitterFactor)`.  At attempt 5
(within `[1, maxAttempts]` since `maxAttempts = 5`) with draw `r = 0`, the
base delay `2000·2⁴ = 32000` exceeds `maxDelay = 30000`, so the cap applies
first and the computed delay is `⌊30000·(1-0.3)⌋ = 21000`, strictly below the
claimed lower bound `32000·(1-0.3) = 22400`. -/
theorem c2_lower_bound_violated_at_attempt_five :
    5 ≤ RETRY_CONFIG.maxAttempts ∧
    ¬ (RETRY_CONFIG.initialDelay * RETRY_CONFIG.backoffMultiplier ^ (5 - 1) *
        (1 - RETRY_CONFIG.jitterFactor) ≤ (calculateBackoff 5 0 : ℚ)) := by
  constructor
  · norm_num [RETRY_CONFIG]
  · norm_num [calculateBackoff, RETRY_CONFIG]

/-- Shared arithmetic: bounds for `⌊c + (r·2 - 1)·(3/10·c)⌋` where `c` is the
capped delay, whenever `c·(7/10)` is the integer `m` and `c ≤ 30000`. -/
lemma floorJitterBounds (c : ℚ) (m : ℤ) (r : ℚ) (hc : 0 < c)
    (hm : (m : ℚ) = c * (7/10)) (hr0 : 0 ≤ r) (hr1 : r ≤ 1) (hcap : c ≤ 30000) :
    c * (7/10) ≤ (⌊c + (r * 2 - 1) * (3/10 * c)⌋ : ℚ) ∧
      (⌊c + (r * 2 - 1) * (3/10 * c)⌋ : ℚ) ≤ 39000 := by
  have hrc : 0 ≤ r * c := mul_nonneg hr0 hc.le
  have hrc1 : 0 ≤ (1 - r) * c := mul_nonneg (by linarith) hc.le
  constructor
  · rw [← hm]
    have h : m ≤ ⌊c + (r * 2 - 1) * (3/10 * c)⌋ := by
      apply Int.le_floor.mpr
      rw [hm]
      nlinarith
    exact_mod_cast h
  · have h1 : (⌊c + (r * 2 - 1) * (3/10 * c)⌋ : ℚ) ≤ c + (r * 2 - 1) * (3/10 * c) :=
      Int.floor_le _
    nlinarith

/-- C2, amended.  For every attempt in `[1, maxAttempts]` and every uniform
draw `r ∈ [0, 1]`, the computed delay lies in
`[min(initialDelay·mult^(attempt-1), maxDelay)·(1-jitterFactor),
maxDelay·(1+jitterFactor)]`: the amendment replaces the claimed lower bound
by its value after the cap at `maxDelay`, which the code applies before
the jitter (the upper bound of the claim is unchanged and holds). -/
theorem c2_backoff_bounds_amended (a : Nat) (r : ℚ) (h1 : 1 ≤ a)
    (h2 : a ≤ RETRY_CONFIG.maxAttempts) (hr0 : 0 ≤ r) (hr1 : r ≤ 1) :
    min (RETRY_CONFIG.initialDelay * RETRY_CONFIG.backoffMultiplier ^ (a - 1))
        RETRY_CONFIG.maxDelay * (1 - RETRY_CONFIG.jitterFactor)
      ≤ (calculateBackoff a r : ℚ) ∧
    (calculateBackoff a r : ℚ) ≤
      RETRY_CONFIG.maxDelay * (1 + RETRY_CONFIG.jitterFactor) := by
  have h2' : a ≤ 5 := by simpa [RETRY_CONFIG] using h2
  interval_cases a
  · have h := floorJitterBounds 2000 1400 r (by norm_num) (by norm_num) hr0 hr1 (by norm_num)
    simp only [calculateBackoff, RETRY_CONFIG] at *
    norm_num at h ⊢
    exact h
  · have h := floorJitterBounds 4000 2800 r (by norm_num) (by norm_num) hr0 hr1 (by norm_num)
    simp only [calculateBackoff, RETRY_CONFIG] at *
    norm_num at h ⊢
    exact h
  · have h := floorJitterBounds 8000 5600 r (by norm_num) (by norm_num) hr0 hr1 (by norm_num)
    simp only [calculateBackoff, RETRY_CONFIG] at *
    norm_num at h ⊢
    exact h
  · have h := floorJitterBounds 16000 11200 r (by norm_num) (by norm_num) hr0 hr1 (by norm_num)
    simp only [calculateBackoff, RETRY_CONFIG] at *
    norm_num at h ⊢
    exact h
  · have h := floorJitterBounds 30000 21000 r (by norm_num) (by norm_num) hr0 hr1 (by norm_num)
    simp only [calculateBackoff, RETRY_CONFIG] at *
    norm_num at h ⊢
    exact h

/-- C2, witness for the amended theorem at attempt 3 with draw `r = 1/2`. -/
theorem c2_backoff_bounds_amended_witness :
    min (RETRY_CONFIG.initialDelay * RETRY_CONFIG.backoffMultiplier ^ (3 - 1))
        RETRY_CONFIG.maxDelay * (1 - RETRY_CONFIG.jitterFactor)
      ≤ (calculateBackoff 3 (1/2) : ℚ) ∧
    (calculateBackoff 3 (1/2) : ℚ) ≤
      RETRY_CONFIG.maxDelay * (1 + RETRY_CONFIG.jitterFactor) :=
  c2_backoff_bounds_amended 3 (1/2) (by norm_num) (by norm_num [RETRY_CONFIG])
    (by norm_num) (by norm_num)

/-- C3, counterexample.  The claim asserts that an exception thrown by
`onRetry` is swallowed and the loop proceeds to sleep and issue the next
attempt.  With attempt 1 returning the retryable status 503 and `onRetry`
throwing a generic `Error`, `fetchWithRetry` instead fails with that very
error after a single request, never sleeping and never issuing attempt 2:
the throw from line 68 lands in the catch block at line 78, is neither an
`AbortError` nor a `TypeError`, and is rethrown at line 98. -/
theorem c3_onretry_throw_aborts_loop :
    fetchWithRetry (fun _ => .resp 503) (fun _ => some cbError) =
      (.failure cbError, ⟨[1], [1], []⟩) := rfl

/-- C3, amended.  An exception thrown by `onRetry` is not swallowed: it
aborts the retry loop.  In the retryable-status path, a thrown error that is
neither an `AbortError` nor a `TypeError` is rethrown by the catch handler
and propagates out of `fetchWithRetry` before any sleep or further attempt;
in the network-error path the throw occurs inside the catch block and
propagates directly, whatever the thrown error is. -/
theorem c3_onretry_throw_propagates (s : Nat) (e f e2 : JsError)
    (hs : s ∈ RETRY_CONFIG.retryableStatuses) (he : retryableError e = false)
    (hf : retryableError f = true) :
    fetchWithRetry (fun _ => .resp s) (fun _ => some e) = (.failure e, ⟨[1], [1], []⟩) ∧
    fetchWithRetry (fun _ => .err f) (fun _ => some e2) = (.failure e2, ⟨[1], [1], []⟩) := by
  constructor
  · fin_cases hs <;> simp [fetchWithRetry, fetchLoop, he, RETRY_CONFIG]
  · simp [fetchWithRetry, fetchLoop, hf, RETRY_CONFIG]

/-- C3, witness: the amended theorem at status 503, a generic error thrown in
the status path, and an `AbortError`-shaped failure in the network path. -/
theorem c3_onretry_throw_propagates_witness :
    fetchWithRetry (fun _ => .resp 503) (fun _ => some cbError) =
      (.failure cbError, ⟨[1], [1], []⟩) ∧
    fetchWithRetry (fun _ => .err abortError) (fun _ => some cbError) =
      (.failure cbError, ⟨[1], [1], []⟩) :=
  c3_onretry_throw_propagates 503 cbError abortError cbError (by decide) rfl rfl

/-- C4.  If every attempt returns a retryable status, `fetchWithRetry` fails
after exactly `maxAttempts = 5` requests — `fetches = [1, 2, 3, 4, 5]`, not
fewer and not more — and the error message names both the status and the
attempt count (the existentials exhibit the message decompositions around
`toString s` and `toString maxAttempts`). -/
theorem c4_all_retryable_fails_after_max_attempts (s : Nat)
    (hs : s ∈ RETRY_CONFIG.retryableStatuses) :
    (fetchWithRetry (fun _ => .resp s) (fun _ => none)).1 =
      .failure (mkError (serverErrorMsg s RETRY_CONFIG.maxAttempts)) ∧
    (fetchWithRetry (fun _ => .resp s) (fun _ => none)).2.fetches = [1, 2, 3, 4, 5] ∧
    (∃ p q, serverErrorMsg s RETRY_CONFIG.maxAttempts = p ++ (toString s ++ q)) ∧
    (∃ p q, serverErrorMsg s RETRY_CONFIG.maxAttempts =
      p ++ (toString RETRY_CONFIG.maxAttempts ++ q)) := by
  refine ⟨?_, ?_, ?_, ?_⟩
  · fin_cases hs <;> rfl
  · fin_cases hs <;> rfl
  · exact ⟨"Server returned ", " after " ++ (toString RETRY_CONFIG.maxAttempts ++ " attempts"),
      rfl⟩
  · refine ⟨"Server returned " ++ toString s ++ " after ", " attempts", ?_⟩
    simp only [serverErrorMsg, String.append_assoc]

/-- C4, witness: all five attempts return 500. -/
theorem c4_all_retryable_fails_after_max_attempts_witness :
    (fetchWithRetry (fun _ => .resp 500) (fun _ => none)).1 =
      .failure (mkError (serverErrorMsg 500 RETRY_CONFIG.maxAttempts)) ∧
    (fetchWithRetry (fun _ => .resp 500) (fun _ => none)).2.fetches = [1, 2, 3, 4, 5] ∧
    (∃ p q, serverErrorMsg 500 RETRY_CONFIG.maxAttempts = p ++ (toString 500 ++ q)) ∧
    (∃ p q, serverErrorMsg 500 RETRY_CONFIG.maxAttempts =
      p ++ (toString RETRY_CONFIG.maxAttempts ++ q)) :=
  c4_all_retryable_fails_after_max_attempts 500 (by decide)

/-- C5.  With `503 ∈ retryableStatuses` and `maxAttempts = 5`, a request
returning 503 on attempts 1-4 and 200 on attempt 5 resolves successfully
with the attempt-5 response after exactly five requests, and `onRetry` is
invoked exactly four times, at the strictly increasing attempt numbers
`[1, 2, 3, 4]`. -/
theorem c5_four_retries_then_success :
    503 ∈ RETRY_CONFIG.retryableStatuses ∧ RETRY_CONFIG.maxAttempts = 5 ∧
    fetchWithRetry (fun a => if a ≤ 4 then .resp 503 else .resp 200) (fun _ => none) =
      (.success 200, ⟨[1, 2, 3, 4, 5], [1, 2, 3, 4], [1, 2, 3, 4]⟩) :=
  ⟨by decide, rfl, rfl⟩

/-- Splitting a concatenation: the complete lines of `x ++ y` are the
complete lines of `x` followed by those of `x`'s retained fragment prepended
to `y`, and the fragments agree. -/
lemma splitLines_assoc (x y : List Char) :
    splitLines (x ++ y) =
      ((splitLines x).1 ++ (splitLines ((splitLines x).2 ++ y)).1,
        (splitLines ((splitLines x).2 ++ y)).2) := by
  induction x with
  | nil => simp [splitLines]
  | cons c cs ih =>
    by_cases hc : c = '\n'
    · subst hc
      simp [splitLines, ih]
    · rcases hA : splitLines cs with ⟨As, Af⟩
      rcases As with _ | ⟨l, t⟩
      · rcases hB : splitLines (Af ++ y) with ⟨Bs, Bf⟩
        rcases Bs with _ | ⟨h, t2⟩ <;>
          simp [splitLines, ih, hA, hB, hc]
      · rcases hB : splitLines (Af ++ y) with ⟨Bs, Bf⟩
        simp [splitLines, ih, hA, hB, hc]

/-- Processing a concatenation of line lists: if the first part triggers the
`done` return, the rest is abandoned; otherwise the results are joined. -/
lemma processLines_append (evth : Jv → Bool) (l1 l2 : List (List Char)) :
    processLines evth (l1 ++ l2) =
      (if (processLines evth l1).2 then processLines evth l1
       else ((processLines evth l1).1 ++ (processLines evth l2).1,
         (processLines evth l2).2)) := by
  induction l1 with
  | nil => simp [processLines]
  | cons line rest ih =>
    by_cases h1 : ['d', 'a', 't', 'a', ':', ' '] <+: line
    · by_cases h2 : trimJs (line.drop 6) = []
      · simpa [processLines, h1, h2] using ih
      · rcases hj : jsonParse (line.drop 6) with _ | ev
        · simpa [processLines, h1, h2, hj] using ih
        · by_cases h3 : evth ev
          · by_cases h4 : (processLines evth rest).2 <;>
              simp [processLines, h1, h2, hj, h3, h4, ih]
          · by_cases h5 : eventTypeThrows ev
            · by_cases h4 : (processLines evth rest).2 <;>
                simp [processLines, h1, h2, hj, h3, h5, h4, ih]
            · by_cases h6 : typeIsDone ev
              · simp [processLines, h1, h2, hj, h3, h5, h6]
              · by_cases h4 : (processLines evth rest).2 <;>
                  simp [processLines, h1, h2, hj, h3, h5, h6, h4, ih]
    · simpa [processLines, h1] using ih

/-- C6.  The SSE reader's line buffering is chunk-boundary invariant: the
read loop cannot distinguish two adjacent chunks from their concatenation,
because after each chunk it splits the buffer on newline, processes all
complete lines and retains the final incomplete fragment.  In particular,
feeding the two chunks `"data: {\"typ"` and `"e\":\"token\",\"data\":\"hi\"}\n"`
— one record split mid-JSON at the chunk boundary — delivers exactly one
`token` event with data `"hi"` to `onEvent`. -/
theorem c6_chunk_boundary_invariance :
    (∀ (evth : Jv → Bool) (c1 c2 : List Char) (rest : List (List Char)) (buffer : List Char),
      readLoop evth (c1 :: c2 :: rest) buffer = readLoop evth ((c1 ++ c2) :: rest) buffer) ∧
    readLoop (fun _ => false)
      ["data: \x7b\"typ".toList, "e\":\"token\",\"data\":\"hi\"\x7d\n".toList] [] =
      ([tokenHiEvent], .endOfStream) := by
  refine ⟨?_, rfl⟩
  intro evth c1 c2 rest buffer
  have hs := splitLines_assoc (buffer ++ c1) c2
  simp only [readLoop, ← List.append_assoc, hs,
    processLines_append evth (splitLines (buffer ++ c1)).1
      (splitLines ((splitLines (buffer ++ c1)).2 ++ c2)).1]
  by_cases h1 : (processLines evth (splitLines (buffer ++ c1)).1).2
  · simp [h1]
  · by_cases h2 :
      (processLines evth (splitLines ((splitLines (buffer ++ c1)).2 ++ c2)).1).2 <;>
      simp [h1, h2]

/-- C7.  A line whose payload after the `data: ` prefix fails to parse as
JSON is skipped without aborting the stream (first conjunct: under any
`onEvent` behaviour, such a line leaves `processLines` exactly as if the
line were absent); in the concrete scenario `data: {not json}` followed by
`data: {"type":"done","data":null}`, the full `askQuestionStream` machine
invokes `onEvent` exactly once — with the `done` event — invokes `onError`
never, and terminates cleanly. -/
theorem c7_malformed_record_skipped :
    (∀ (evth : Jv → Bool) (d : List Char) (rest : List (List Char)),
      jsonParse d = none →
      processLines evth (("data: ".toList ++ d) :: rest) = processLines evth rest) ∧
    (askRun c7Script gInit [0, 0, 0, 0]).log = [.ev 0 doneEvent] ∧
    onErrorCount 0 (askRun c7Script gInit [0, 0, 0, 0]).log = 0 ∧
    (askRun c7Script gInit [0, 0, 0, 0]).phases 0 = .finished ∧
    (askRun c7Script gInit [0, 0, 0, 0]).handle = none := by
  refine ⟨?_, rfl, rfl, rfl, rfl⟩
  intro evth d rest hj
  have hpre : ['d', 'a', 't', 'a', ':', ' '] <+: ("data: ".toList ++ d) := ⟨d, rfl⟩
  have hdrop : ("data: ".toList ++ d).drop 6 = d := List.drop_left "data: ".toList d
  by_cases h2 : trimJs d = []
  · simp [processLines, hpre, hdrop, h2]
  · simp [processLines, hpre, hdrop, h2, hj]

/-- C7, witness: the skip lemma applied to the literal payload `{not json}`. -/
theorem c7_malformed_record_skipped_witness :
    processLines (fun _ => false) (("data: ".toList ++ "\x7bnot json\x7d".toList) :: []) =
      processLines (fun _ => false) [] :=
  c7_malformed_record_skipped.1 (fun _ => false) "\x7bnot json\x7d".toList [] rfl

/-- C9.  If `onEvent` throws while handling a successfully parsed event, the
exception is caught by the same handler as JSON parse failures and the
stream continues (first conjunct: a line whose event makes `onEvent` throw
contributes its event to the log and then processing continues with the
remaining lines — the `done` check after `onEvent` is never reached).  In
the concrete scenario, `onEvent` throws on the `done` event: the reader is
not cancelled there, the following `token` record is still read and
delivered, `onError` is never invoked, and the loop ends by end of stream
rather than by the `done` return. -/
theorem c9_onevent_throw_continues_stream :
    (∀ (evth : Jv → Bool) (ev : Jv) (d : List Char) (rest : List (List Char)),
      jsonParse d = some ev → evth ev = true → trimJs d ≠ [] →
      processLines evth (("data: ".toList ++ d) :: rest) =
        (ev :: (processLines evth rest).1, (processLines evth rest).2)) ∧
    (askRun c9Script gInit [0, 0, 0, 0, 0]).log =
      [.ev 0 doneEvent, .ev 0 tokenHiEvent] ∧
    onErrorCount 0 (askRun c9Script gInit [0, 0, 0, 0, 0]).log = 0 ∧
    (askRun c9Script gInit [0, 0, 0, 0, 0]).phases 0 = .finished ∧
    readLoop typeIsDone (c9Script 0).chunks [] =
      ([doneEvent, tokenHiEvent], .endOfStream) := by
  refine ⟨?_, rfl, rfl, rfl, rfl⟩
  intro evth ev d rest hj hth h2
  have hpre : ['d', 'a', 't', 'a', ':', ' '] <+: ("data: ".toList ++ d) := ⟨d, rfl⟩
  have hdrop : ("data: ".toList ++ d).drop 6 = d := List.drop_left "data: ".toList d
  simp [processLines, hpre, hdrop, h2, hj, hth]

/-- C9, witness: the continuation lemma applied to the literal `done`
payload with an `onEvent` that throws on `done` events. -/
theorem c9_onevent_throw_continues_stream_witness :
    processLines typeIsDone
      (("data: ".toList ++ "\x7b\"type\":\"done\",\"data\":null\x7d".toList) :: []) =
      (doneEvent :: (processLines typeIsDone []).1, (processLines typeIsDone []).2) :=
  c9_onevent_throw_continues_stream.1 typeIsDone doneEvent
    "\x7b\"type\":\"done\",\"data\":null\x7d".toList [] rfl rfl (by decide)

/-- C8.  If a call's controller has been aborted externally while the call is
suspended on its stream request or on a read, its next step treats this as
benign: the state logs nothing new (in particular no `onError` invocation),
the call stops reading (its phase becomes `finished`), and the active stream
handle is cleared. -/
theorem c8_external_cancellation_benign (sc : Nat → CallScript) (g : GState) (c : Nat)
    (hab : c ∈ g.aborted)
    (hp : g.phases c = .fetchWait ∨ ∃ rem buffer, g.phases c = .reading rem buffer) :
    (askStep sc g c).handle = none ∧
    (askStep sc g c).log = g.log ∧
    (askStep sc g c).phases c = .finished := by
  rcases hp with hp | ⟨rem, buffer, hp⟩ <;> simp [askStep, hp, hab]

/-- C8, witness: a call suspended on a read whose controller was aborted. -/
theorem c8_external_cancellation_benign_witness :
    (askStep emptyScript
      { handle := some 0, aborted := [0], phases := fun _ => .reading [] [], log := [] }
      0).handle = none ∧
    (askStep emptyScript
      { handle := some 0, aborted := [0], phases := fun _ => .reading [] [], log := [] }
      0).log = [] ∧
    (askStep emptyScript
      { handle := some 0, aborted := [0], phases := fun _ => .reading [] [], log := [] }
      0).phases 0 = .finished :=
  c8_external_cancellation_benign emptyScript
    { handle := some 0, aborted := [0], phases := fun _ => .reading [] [], log := [] }
    0 (by decide) (Or.inr ⟨[], [], rfl⟩)

/-- C10.  Every step that finishes a call unconditionally sets the shared
handle to `none`, whether or not the handle still refers to that call's own
controller (first conjunct).  Consequently (remaining conjuncts, on the
concrete three-call schedule `[0, 0, 1, 1, 0, 2]`): after call 0 installs
its controller, call 1 supersedes it (aborting 0 and installing its own
controller), and call 0's cleanup then clears call 1's handle while call 1
is still streaming; the third call 2 then finds no handle to cancel, so the
whole run aborts only call 0's controller and logs exactly one abort. -/
theorem c10_cleanup_always_clears_handle :
    (∀ (sc : Nat → CallScript) (g : GState) (c : Nat),
      g.phases c ≠ .finished → (askStep sc g c).phases c = .finished →
      (askStep sc g c).handle = none) ∧
    (askRun emptyScript gInit [0, 0, 1, 1, 0]).handle = none ∧
    (askRun emptyScript gInit [0, 0, 1, 1, 0]).phases 1 = .fetchWait ∧
    (askRun emptyScript gInit [0, 0, 1, 1, 0, 2]).aborted = [0] ∧
    (askRun emptyScript gInit [0, 0, 1, 1, 0, 2]).log = [.abortSig 0] := by
  refine ⟨?_, rfl, rfl, rfl, rfl⟩
  intro sc g c h1 h2
  cases hp : g.phases c with
  | start =>
    rcases hh : g.handle with _ | k <;> simp [askStep, hp, hh] at h2
  | health =>
    by_cases hok : (sc c).healthOk
    · simp [askStep, hp, hok] at h2
    · simp [askStep, hp, hok]
  | fetchWait =>
    by_cases hab : c ∈ g.aborted
    · simp [askStep, hp, hab]
    · by_cases hsok : (sc c).streamOk
      · simp [askStep, hp, hab, hsok] at h2
      · simp [askStep, hp, hab, hsok]
  | reading rem buffer =>
    by_cases hab : c ∈ g.aborted
    · simp [askStep, hp, hab]
    · cases rem with
      | nil => simp [askStep, hp, hab]
      | cons ch rest =>
        by_cases hd : (processLines (sc c).evThrows (splitLines (buffer ++ ch)).1).2
        · simp [askStep, hp, hab, hd]
        · simp [askStep, hp, hab, hd] at h2
  | finished => exact absurd hp h1

/-- C10, witness: a finishing step (end of stream) from a state in which the
handle belongs to a different call. -/
theorem c10_cleanup_always_clears_handle_witness :
    (askStep emptyScript
      { handle := some 5, aborted := [], phases := fun _ => .reading [] [], log := [] }
      0).handle = none :=
  c10_cleanup_always_clears_handle.1 emptyScript
    { handle := some 5, aborted := [], phases := fun _ => .reading [] [], log := [] }
    0 (by decide) rfl

lemma onEventsBy_append (a : Nat) (l1 l2 : List LogEntry) :
    onEventsBy a (l1 ++ l2) = onEventsBy a l1 ++ onEventsBy a l2 := by
  simp [onEventsBy, List.filterMap_append]

lemma onEventsBy_map_ev (a c : Nat) (es : List Jv) :
    onEventsBy a (es.map (.ev c)) = if c = a then es else [] := by
  induction es with
  | nil => simp [onEventsBy]
  | cons v t ih =>
    by_cases h : c = a <;> simp [onEventsBy, h] at ih ⊢ <;> exact ih

lemma onEventsBy_abortSig (a k : Nat) : onEventsBy a [LogEntry.abortSig k] = [] := by
  simp [onEventsBy]

lemma onEventsBy_errCb (a c : Nat) : onEventsBy a [LogEntry.errCb c] = [] := by
  simp [onEventsBy]

/-- A step of call `c` does not touch another call `a`'s phase, cannot
un-abort `a`, and logs no `onEvent` invocation attributed to `a`. -/
lemma askStep_frame (sc : Nat → CallScript) (g : GState) (c a : Nat) (hca : c ≠ a) :
    (a ∈ g.aborted → a ∈ (askStep sc g c).aborted) ∧
    (askStep sc g c).phases a = g.phases a ∧
    onEventsBy a (askStep sc g c).log = onEventsBy a g.log := by
  have hupd : ∀ p, Function.update g.phases c p a = g.phases a :=
    fun p => Function.update_noteq (Ne.symm hca) p g.phases
  cases hp : g.phases c with
  | start =>
    rcases hh : g.handle with _ | k <;>
      simp [askStep, hp, hh, hupd, onEventsBy_append, onEventsBy_abortSig,
        List.mem_cons]
    exact fun h => Or.inr h
  | health =>
    by_cases hok : (sc c).healthOk <;>
      simp [askStep, hp, hok, hupd, onEventsBy_append, onEventsBy_errCb]
  | fetchWait =>
    by_cases hab : c ∈ g.aborted
    · simp [askStep, hp, hab, hupd]
    · by_cases hsok : (sc c).streamOk <;>
        simp [askStep, hp, hab, hsok, hupd, onEventsBy_append, onEventsBy_errCb]
  | reading rem buffer =>
    by_cases hab : c ∈ g.aborted
    · simp [askStep, hp, hab, hupd]
    · cases rem with
      | nil => simp [askStep, hp, hab, hupd]
      | cons ch rest =>
        by_cases hd : (processLines (sc c).evThrows (splitLines (buffer ++ ch)).1).2 <;>
          simp [askStep, hp, hab, hd, hupd, onEventsBy_append, onEventsBy_map_ev, hca]
  | finished => simp [askStep, hp]

/-- A step of an already-aborted, post-install call keeps it aborted and
post-install and logs no `onEvent` invocation: the pending request or read
rejects with `AbortError` and the call silently finishes. -/
lemma askStep_self_aborted (sc : Nat → CallScript) (g : GState) (a : Nat)
    (ha : a ∈ g.aborted) (hp : postInstall (g.phases a)) :
    a ∈ (askStep sc g a).aborted ∧ postInstall ((askStep sc g a).phases a) ∧
    onEventsBy a (askStep sc g a).log = onEventsBy a g.log := by
  rcases hp with h | ⟨rem, buffer, h⟩ | h
  · have hstep : askStep sc g a =
        { g with handle := none, phases := Function.update g.phases a .finished } := by
      simp [askStep, h, ha]
    rw [hstep]
    exact ⟨ha, Or.inr (Or.inr (by simp)), rfl⟩
  · have hstep : askStep sc g a =
        { g with handle := none, phases := Function.update g.phases a .finished } := by
      simp [askStep, h, ha]
    rw [hstep]
    exact ⟨ha, Or.inr (Or.inr (by simp)), rfl⟩
  · have hstep : askStep sc g a = g := by simp [askStep, h]
    rw [hstep]
    exact ⟨ha, Or.inr (Or.inr h), rfl⟩

/-- Once a post-install call has been aborted, no schedule ever makes it
invoke `onEvent` again. -/
lemma no_events_after_abort (sc : Nat → CallScript) (σ : List Nat) (g : GState) (a : Nat)
    (ha : a ∈ g.aborted) (hp : postInstall (g.phases a)) :
    onEventsBy a (askRun sc g σ).log = onEventsBy a g.log := by
  induction σ generalizing g with
  | nil => rfl
  | cons c rest ih =>
    by_cases hca : c = a
    · subst hca
      obtain ⟨h1, h2, h3⟩ := askStep_self_aborted sc g c ha hp
      calc onEventsBy c (askRun sc (askStep sc g c) rest).log
          = onEventsBy c (askStep sc g c).log := ih _ h1 h2
        _ = onEventsBy c g.log := h3
    · obtain ⟨h1, h2, h3⟩ := askStep_frame sc g c a hca
      calc onEventsBy a (askRun sc (askStep sc g c) rest).log
          = onEventsBy a (askStep sc g c).log := ih _ (h1 ha) (by rw [h2]; exact hp)
        _ = onEventsBy a g.log := h3

lemma askStep_finished_fix (sc : Nat → CallScript) (g : GState) (c : Nat)
    (hp : g.phases c = .finished) : askStep sc g c = g := by
  simp [askStep, hp]

lemma askRun_replicate_finished (sc : Nat → CallScript) (g : GState) (c : Nat) (n : Nat)
    (hp : g.phases c = .finished) : askRun sc g (List.replicate n c) = g := by
  induction n with
  | zero => rfl
  | succ n ih => simp [List.replicate_succ, askRun, askStep_finished_fix sc g c hp, ih]

/-- An unaborted call scheduled alone from its reading phase consumes its
chunks exactly as `readLoop` does and finishes, logging precisely the
events `readLoop` delivers and clearing the handle. -/
lemma solo_reading_run (sc : Nat → CallScript) (b : Nat) (rem : List (List Char)) :
    ∀ (buffer : List Char) (g : GState), g.phases b = .reading rem buffer → b ∉ g.aborted →
    (askRun sc g (List.replicate (rem.length + 1) b)).phases b = .finished ∧
    (askRun sc g (List.replicate (rem.length + 1) b)).log =
      g.log ++ (readLoop (sc b).evThrows rem buffer).1.map (.ev b) ∧
    (askRun sc g (List.replicate (rem.length + 1) b)).handle = none ∧
    (askRun sc g (List.replicate (rem.length + 1) b)).aborted = g.aborted := by
  induction rem with
  | nil =>
    intro buffer g hp hab
    have hstep : askStep sc g b =
        { g with handle := none, phases := Function.update g.phases b .finished } := by
      simp [askStep, hp, hab]
    simp [List.replicate, askRun, hstep, readLoop]
  | cons ch rest ih =>
    intro buffer g hp hab
    have hrep : List.replicate ((ch :: rest).length + 1) b =
        b :: List.replicate (rest.length + 1) b := by
      simp [List.replicate_succ]
    by_cases hd : (processLines (sc b).evThrows (splitLines (buffer ++ ch)).1).2
    · have hstep : askStep sc g b =
          { g with handle := none, phases := Function.update g.phases b .finished, log := g.log ++ (processLines (sc b).evThrows (splitLines (buffer ++ ch)).1).1.map (.ev b) } := by
        simp [askStep, hp, hab, hd]
      have hfix := askRun_replicate_finished sc
        { g with handle := none, phases := Function.update g.phases b .finished, log := g.log ++ (processLines (sc b).evThrows (splitLines (buffer ++ ch)).1).1.map (.ev b) }
        b (rest.length + 1) (by simp)
      have hcons : askRun sc g (List.replicate ((ch :: rest).length + 1) b) =
          askRun sc (askStep sc g b) (List.replicate (rest.length + 1) b) := by
        rw [hrep]; rfl
      rw [hcons, hstep, hfix]
      simp [readLoop, hd]
    · have hstep : askStep sc g b =
          { g with phases := Function.update g.phases b (.reading rest (splitLines (buffer ++ ch)).2), log := g.log ++ (processLines (sc b).evThrows (splitLines (buffer ++ ch)).1).1.map (.ev b) } := by
        simp [askStep, hp, hab, hd]
      obtain ⟨ih1, ih2, ih3, ih4⟩ := ih (splitLines (buffer ++ ch)).2
        { g with phases := Function.update g.phases b (.reading rest (splitLines (buffer ++ ch)).2), log := g.log ++ (processLines (sc b).evThrows (splitLines (buffer ++ ch)).1).1.map (.ev b) }
        (by simp) hab
      have hcons : askRun sc g (List.replicate ((ch :: rest).length + 1) b) =
          askRun sc (askStep sc g b) (List.replicate (rest.length + 1) b) := by
        rw [hrep]; rfl
      rw [hcons, hstep]
      refine ⟨ih1, ?_, ih3, ih4⟩
      rw [ih2]
      simp [readLoop, hd, List.append_assoc]

lemma onErrorCount_append (a : Nat) (l1 l2 : List LogEntry) :
    onErrorCount a (l1 ++ l2) = onErrorCount a l1 + onErrorCount a l2 := by
  simp [onErrorCount, List.filter_append]

lemma onErrorCount_abortSig (a k : Nat) : onErrorCount a [LogEntry.abortSig k] = 0 := by
  simp [onErrorCount]

lemma onErrorCount_map_ev (a c : Nat) (es : List Jv) :
    onErrorCount a (es.map (.ev c)) = 0 := by
  induction es with
  | nil => rfl
  | cons v t ih => simpa [onErrorCount] using ih

lemma onEventsBy_abort_cons (a k : Nat) (l : List LogEntry) :
    onEventsBy a (LogEntry.abortSig k :: l) = onEventsBy a l := by
  simp [onEventsBy]

lemma onErrorCount_abort_cons (a k : Nat) (l : List LogEntry) :
    onErrorCount a (LogEntry.abortSig k :: l) = onErrorCount a l := by
  simp [onErrorCount]

/-- C1, counterexample.  The claim asserts that whenever call B starts while
call A has not yet terminated, B's startup cancels A and A never invokes
`onEvent` afterwards.  On the schedule `[0, 1, 1, 1, 0, 0, 0]`, call 1 (B)
starts — runs its entry segment — at the second step, while call 0 (A) is
still awaiting its health probe (first two conjuncts); since A has not yet
installed its controller, `currentStreamController` is `null` and B cancels
nothing: over the whole run no `abort()` is ever invoked (third conjunct)
and A still delivers a `token` event to `onEvent` after B has started
(fourth conjunct). -/
theorem c1_superseded_call_still_emits :
    (askRun c1Script gInit [0]).phases 0 = .health ∧
    (askRun c1Script gInit [0, 1]).phases 1 = .health ∧
    (askRun c1Script gInit [0, 1, 1, 1, 0, 0, 0]).aborted = [] ∧
    onEventsBy 0 (askRun c1Script gInit [0, 1, 1, 1, 0, 0, 0]).log = [tokenHiEvent] :=
  ⟨rfl, rfl, rfl, rfl⟩

/-- C1, amended.  At most one stream is active at a time *among calls past
their health probe*: if call B starts while call A's controller is installed
as the active handle (A suspended on its stream request or a read), then B's
entry segment aborts A's controller and clears the handle before B issues
any request (first four conjuncts), A never invokes `onEvent` again under
any subsequent schedule (fifth conjunct), and B, scheduled through to
completion, finishes normally, delivering exactly its stream's parsed events
and never invoking `onError` (last three conjuncts).  The amendment
restricts the claim to a superseding call that arrives after A's health
probe has completed; the counterexample shows the restriction is necessary. -/
theorem c1_supersede_after_install_cancels (sc : Nat → CallScript) (g : GState)
    (a b : Nat) (σ : List Nat)
    (hb : g.phases b = .start) (hh : g.handle = some a)
    (hpa : g.phases a = .fetchWait ∨ ∃ rem buffer, g.phases a = .reading rem buffer)
    (hab : a ≠ b) (hbna : b ∉ g.aborted)
    (hok : (sc b).healthOk = true) (hsok : (sc b).streamOk = true) :
    a ∈ (askStep sc g b).aborted ∧
    (askStep sc g b).handle = none ∧
    (askStep sc g b).phases b = .health ∧
    (askStep sc g b).log = g.log ++ [.abortSig a] ∧
    onEventsBy a (askRun sc (askStep sc g b) σ).log = onEventsBy a g.log ∧
    (askRun sc (askStep sc g b)
      (List.replicate ((sc b).chunks.length + 3) b)).phases b = .finished ∧
    onEventsBy b (askRun sc (askStep sc g b)
      (List.replicate ((sc b).chunks.length + 3) b)).log =
      onEventsBy b g.log ++ (readLoop (sc b).evThrows (sc b).chunks []).1 ∧
    onErrorCount b (askRun sc (askStep sc g b)
      (List.replicate ((sc b).chunks.length + 3) b)).log = onErrorCount b g.log := by
  have hba : b ≠ a := Ne.symm hab
  have hg1 : askStep sc g b =
      { handle := none, aborted := a :: g.aborted, phases := Function.update g.phases b .health, log := g.log ++ [.abortSig a] } := by
    simp [askStep, hb, hh]
  have hpa1 : Function.update g.phases b Phase.health a = g.phases a :=
    Function.update_noteq hab _ g.phases
  have hpost : postInstall (Function.update g.phases b Phase.health a) := by
    rw [hpa1]
    rcases hpa with h | ⟨rem, buffer, h⟩
    · exact Or.inl h
    · exact Or.inr (Or.inl ⟨rem, buffer, h⟩)
  have hbmem : b ∉ a :: g.aborted := by
    intro hmem
    rcases List.mem_cons.mp hmem with h1 | h1
    · exact hba h1
    · exact hbna h1
  -- the two further startup segments of b: health resolution, then the
  -- streaming POST
  have hstep2 : askStep sc
      { handle := none, aborted := a :: g.aborted, phases := Function.update g.phases b .health, log := g.log ++ [.abortSig a] } b =
      { handle := some b, aborted := a :: g.aborted, phases := Function.update (Function.update g.phases b .health) b .fetchWait, log := g.log ++ [.abortSig a] } := by
    simp [askStep, Function.update_same, hok]
  have hstep3 : askStep sc
      { handle := some b, aborted := a :: g.aborted, phases := Function.update (Function.update g.phases b .health) b .fetchWait, log := g.log ++ [.abortSig a] } b =
      { handle := some b, aborted := a :: g.aborted, phases := Function.update (Function.update (Function.update g.phases b .health) b .fetchWait) b (.reading (sc b).chunks []), log := g.log ++ [.abortSig a] } := by
    simp [askStep, Function.update_same, hbmem, hsok]
  obtain ⟨hs1, hs2, hs3, hs4⟩ := solo_reading_run sc b (sc b).chunks []
    { handle := some b, aborted := a :: g.aborted, phases := Function.update (Function.update (Function.update g.phases b .health) b .fetchWait) b (.reading (sc b).chunks []), log := g.log ++ [.abortSig a] }
    (by simp [Function.update_same]) hbmem
  have hr3 : List.replicate ((sc b).chunks.length + 3) b =
      b :: b :: List.replicate ((sc b).chunks.length + 1) b := rfl
  have hchain : askRun sc
      { handle := none, aborted := a :: g.aborted, phases := Function.update g.phases b .health, log := g.log ++ [.abortSig a] }
      (List.replicate ((sc b).chunks.length + 3) b) =
      askRun sc
      { handle := some b, aborted := a :: g.aborted, phases := Function.update (Function.update (Function.update g.phases b .health) b .fetchWait) b (.reading (sc b).chunks []), log := g.log ++ [.abortSig a] }
      (List.replicate ((sc b).chunks.length + 1) b) := by
    rw [hr3]
    show askRun sc (askStep sc (askStep sc _ b) b) _ = _
    rw [hstep2, hstep3]
  refine ⟨?_, ?_, ?_, ?_, ?_, ?_, ?_, ?_⟩
  · rw [hg1]; exact List.mem_cons_self a g.aborted
  · rw [hg1]
  · rw [hg1]; simp [Function.update_same]
  · rw [hg1]
  · rw [hg1]
    rw [no_events_after_abort sc σ _ a (List.mem_cons_self a g.aborted) hpost]
    simp [onEventsBy_append, onEventsBy_abortSig]
  · rw [hg1, hchain]; exact hs1
  · rw [hg1, hchain, hs2]
    simp [onEventsBy_append, onEventsBy_abortSig, onEventsBy_map_ev, onEventsBy_abort_cons]
  · rw [hg1, hchain, hs2]
    simp [onErrorCount_append, onErrorCount_abortSig, onErrorCount_map_ev,
      onErrorCount_abort_cons]

/-- C1, witness for the amended theorem: call 1 starts while call 0's
controller is installed, cancels it, and runs to completion of its
one-chunk `done` stream. -/
theorem c1_supersede_after_install_cancels_witness :
    0 ∈ (askStep c1Script c1WitnessState 1).aborted ∧
    (askStep c1Script c1WitnessState 1).handle = none ∧
    (askStep c1Script c1WitnessState 1).phases 1 = .health ∧
    (askStep c1Script c1WitnessState 1).log = c1WitnessState.log ++ [.abortSig 0] ∧
    onEventsBy 0 (askRun c1Script (askStep c1Script c1WitnessState 1) [0, 0]).log =
      onEventsBy 0 c1WitnessState.log ∧
    (askRun c1Script (askStep c1Script c1WitnessState 1)
      (List.replicate ((c1Script 1).chunks.length + 3) 1)).phases 1 = .finished ∧
    onEventsBy 1 (askRun c1Script (askStep c1Script c1WitnessState 1)
      (List.replicate ((c1Script 1).chunks.length + 3) 1)).log =
      onEventsBy 1 c1WitnessState.log ++
        (readLoop (c1Script 1).evThrows (c1Script 1).chunks []).1 ∧
    onErrorCount 1 (askRun c1Script (askStep c1Script c1WitnessState 1)
      (List.replicate ((c1Script 1).chunks.length + 3) 1)).log =
      onErrorCount 1 c1WitnessState.log :=
  c1_supersede_after_install_cancels c1Script c1WitnessState 0 1 [0, 0]
    rfl rfl (Or.inr ⟨[], [], rfl⟩) (by decide) (by decide) rfl rfl
